import Mathlib

/-!
Verification of the room lifecycle and resource-coordination layer of the
collaboration gateway (`jupyter_collaboration/handlers.py`).

The embedding models the handler code shallowly:

* binary frames become `List Nat` (one entry per byte);
* the per-connection receive queue (`_message_queue`) becomes a `List Msg`
  consumed from the front, with the empty list standing for the falsy
  sentinel `b""`;
* the process-wide registries (room registry, loader mapping, connected
  users directory) become association lists inside an explicit
  `ServerState`, threaded through every operation;
* `asyncio` tasks are modelled by explicit status values: the handler
  methods contain no `await` between the state reads and writes that the
  claims are about, so each method application is one atomic step on the
  shared state, exactly as the event loop serialises them;
* Python runtime errors (IndexError, AttributeError) become `Except.error`.

Components of this repository that are not part of the handler module
(`loaders.py`, `rooms.py`, `utils.py`, `websocketserver.py`) are modelled
from the specification; each such definition carries a doc comment saying
so.
-/

namespace JupyterCollab

/-- Binary websocket frame: a list of byte values. -/
abbrev Msg := List Nat

/-- Message type discriminator for awareness frames
(`ypy_websocket.yutils.YMessageType.AWARENESS`). -/
def AWARENESS : Nat := 1

/-- Result of `room.awareness.get_changes(message[1:])`, the external
awareness decoder: the added client ids paired with the display name found
in their state (`u["user"]["name"]` when `"user" in u`, else `none`),
and the removed client ids. -/
structure AwarenessChanges where
  added : List (Nat × Option String)
  removed : List Nat
deriving Repr, DecidableEq

/-- Process-wide connected users directory
(`websocket_server.connected_users`): client id to display name. -/
abbrev ConnectedUsers := List (Nat × String)

/-- Dictionary lookup in the connected users directory. -/
def usersLookup (cu : ConnectedUsers) (uid : Nat) : Option String :=
  (cu.find? (fun p => p.1 == uid)).map Prod.snd

/-- Dictionary assignment `connected_users[user] = name`: replace the
entry in place when the key is present, append otherwise (Python dicts
keep insertion order and hold at most one entry per key). -/
def usersInsert (cu : ConnectedUsers) (uid : Nat) (name : String) : ConnectedUsers :=
  match cu with
  | [] => [(uid, name)]
  | p :: tl => if p.1 = uid then (uid, name) :: tl else p :: usersInsert tl uid name

/-- Dictionary deletion `del connected_users[user]`: drop the entries
with the given key. -/
def usersErase (cu : ConnectedUsers) (uid : Nat) : ConnectedUsers :=
  cu.filter (fun p => p.1 != uid)

/-- First loop of the awareness branch of `on_message`: insert, in
order, every added user whose state carries a user name. -/
def addUsers : List (Nat × Option String) → ConnectedUsers → ConnectedUsers
  | [], cu => cu
  | p :: tl, cu =>
    addUsers tl
      (match p.2 with
       | some name => usersInsert cu p.1 name
       | none => cu)

/-- Second loop of the awareness branch of `on_message`: delete, in
order, every removed user that is present in the directory. -/
def removeUsers : List Nat → ConnectedUsers → ConnectedUsers
  | [], cu => cu
  | uid :: tl, cu =>
    removeUsers tl (if (usersLookup cu uid).isSome then usersErase cu uid else cu)

/-- Awareness branch of `on_message`: the add loop followed by the
remove loop. -/
def applyAwareness (ch : AwarenessChanges) (cu : ConnectedUsers) : ConnectedUsers :=
  removeUsers ch.removed (addUsers ch.added cu)

/-- Per-handler mutable state touched by `on_message`: the process-wide
connected users directory, the `_message_queue` contents (front = next
message to be dequeued), and the `ypatch_nb` counter. -/
structure HandlerState where
  connected_users : ConnectedUsers
  queue : List Msg
  ypatch_nb : Nat
deriving Repr, DecidableEq

/-- Embedding of `YDocWebSocketHandler.on_message`.  `decode` stands for
the external `room.awareness.get_changes`.  Reading `message[0]` of an
empty frame raises IndexError; otherwise the awareness branch updates the
directory (the `skip` flag is initialised to `False` and never set, so the
filtered-out early return is dead code) and the frame is enqueued. -/
def on_message (decode : Msg → AwarenessChanges) (message : Msg)
    (st : HandlerState) : Except String HandlerState :=
  match message with
  | [] => .error "IndexError: index out of range"
  | message_type :: rest =>
    if message_type = AWARENESS then
      let skip := false
      let changes := decode rest
      let st1 := { st with connected_users := applyAwareness changes st.connected_users }
      if skip then
        .ok st1
      else
        .ok { st1 with queue := st1.queue ++ [message], ypatch_nb := st1.ypatch_nb + 1 }
    else
      .ok { st with queue := st.queue ++ [message], ypatch_nb := st.ypatch_nb + 1 }

/-- One step of `YDocWebSocketHandler.__anext__` on the message obtained
from the queue: a falsy (empty) message raises `StopAsyncIteration`
(`none`), any other message is yielded to the relay loop. -/
def anextStep (m : Msg) : Option Msg :=
  if m = [] then none else some m

/-- Messages yielded to the room relay loop when the queue contents are
consumed in order: iteration stops at the first falsy entry. -/
def drain : List Msg → List Msg
  | [] => []
  | m :: rest =>
    match anextStep m with
    | none => []
    | some x => x :: drain rest

/-- Deliver a list of inbound frames to `on_message` in order, stopping
at the first raised error. -/
def feed (decode : Msg → AwarenessChanges) :
    List Msg → HandlerState → Except String HandlerState
  | [], st => .ok st
  | m :: tl, st =>
    match on_message decode m st with
    | .error e => .error e
    | .ok st1 => feed decode tl st1

/-! ### Rooms, registries and the handler constructor -/

/-- Number of occurrences of the separator in a room identity
(`self._room_id.count(":")`). -/
def colonCount (s : String) : Nat :=
  s.data.count (Char.ofNat 58)

/-- Characters before the first separator. -/
def takeToColon : List Char → List Char
  | [] => []
  | c :: rest => if c = Char.ofNat 58 then [] else c :: takeToColon rest

/-- Characters after the first separator. -/
def dropPastColon : List Char → List Char
  | [] => []
  | c :: rest => if c = Char.ofNat 58 then rest else dropPastColon rest

/-- Modelled from the spec: `decode_file_path` from the missing `utils.py`
splits the composite key serialized as `file_format:file_type:file_id` at
the first two separators; the identifier part keeps any further
separators it contains. -/
def decode_file_path (path : String) : String × String × String :=
  let d := path.data
  let afterFirst := dropPastColon d
  (String.mk (takeToColon d),
   String.mk (takeToColon afterFirst),
   String.mk (dropPastColon afterFirst))

/-- Status of a scheduled asyncio task (the cleanup timer). -/
inductive TaskStatus
  | pending
  | cancelled
deriving Repr, DecidableEq

/-- State of a Document Room that the handler manipulates: the room
identity, an instance counter distinguishing distinct constructions, the
connected clients (handler ids registered by the relay server), the
optional cleanup task, whether the room finished its first
initialization, and the abstract CRDT document state. -/
structure DocumentRoom where
  room_id : String
  instance_id : Nat
  clients : List Nat
  cleaner : Option TaskStatus
  isInit : Bool
  doc : Nat
deriving Repr, DecidableEq

/-- The two room variants served by the handler. -/
inductive Room
  | document (d : DocumentRoom)
  | transient (room_id : String) (instance_id : Nat)
deriving Repr, DecidableEq

/-- Whether a room is the Document variant. -/
def Room.isDocument : Room → Bool
  | .document _ => true
  | .transient _ _ => false

/-- Instance counter of a room, used to tell distinct constructions apart. -/
def Room.instId : Room → Nat
  | .document d => d.instance_id
  | .transient _ i => i

/-- Modelled from the spec: a Content Loader entry of the missing
`loaders.py`, reduced to the fields the handler reads: the underlying
file identity and the subscriber count (`number_of_subscriptions`). -/
structure FileLoader where
  file_id : String
  subscriptions : Nat
deriving Repr, DecidableEq

/-- Observability event emitted through `self._emit`. -/
structure Event where
  level : Nat
  room : String
  path : String
  action : Option String
  msg : Option String
deriving Repr, DecidableEq

/-- Numeric stand-ins for `LogLevel.INFO` and `LogLevel.WARNING`. -/
def LOG_INFO : Nat := 0

/-- Numeric stand-in for the warning level. -/
def LOG_WARNING : Nat := 1

/-- Process-wide shared state: the Room Registry
(`websocket_server.rooms`), the loader mapping (`self._file_loaders`,
keyed by room identity), the file-id manager path table, a counter
supplying fresh instance ids, and the emitted events. -/
structure ServerState where
  rooms : List (String × Room)
  loaders : List (String × FileLoader)
  fidPaths : List (String × String)
  nextInstance : Nat
  events : List Event
deriving Repr, DecidableEq

/-- Registry lookup (`websocket_server.get_room` on an existing key). -/
def roomsLookup (rooms : List (String × Room)) (id : String) : Option Room :=
  (rooms.find? (fun p => p.1 == id)).map Prod.snd

/-- Registry membership test (`websocket_server.room_exists`). -/
def room_exists (st : ServerState) (id : String) : Bool :=
  (roomsLookup st.rooms id).isSome

/-- Modelled from the spec: `BaseFileIdManager.get_path` resolves a file
identity to its storage path. -/
def get_path (st : ServerState) (fid : String) : String :=
  ((st.fidPaths.find? (fun p => p.1 == fid)).map Prod.snd).getD ""

/-- Modelled from the spec: `FileLoaderMapping.get_loaders_from_file_id`
returns every loader currently serving the given underlying file
identity. -/
def get_loaders_from_file_id (st : ServerState) (fid : String) : List FileLoader :=
  (st.loaders.filter (fun p => p.2.file_id == fid)).map Prod.snd

/-- Modelled from the spec: `FileLoaderMapping.__getitem__` returns the
existing loader for the key or creates one for the decoded file identity
(lookup-or-create, per the Loader Registry contract). -/
def loadersGetItem (st : ServerState) (key : String) (fid : String) :
    FileLoader × ServerState :=
  match (st.loaders.find? (fun p => p.1 == key)).map Prod.snd with
  | some l => (l, st)
  | none =>
    let l : FileLoader := { file_id := fid, subscriptions := 0 }
    (l, { st with loaders := st.loaders ++ [(key, l)] })

/-- Embedding of `YDocWebSocketHandler._emit`: decode the room identity,
resolve the path and append the event. -/
def emitEvent (st : ServerState) (room_id : String) (level : Nat)
    (action : Option String) (msg : Option String) : ServerState :=
  let fid := (decode_file_path room_id).2.2
  let path := get_path st fid
  { st with events := st.events ++
      [{ level := level, room := room_id, path := path, action := action, msg := msg }] }

/-- Warning message emitted on a same-file conflict. -/
def conflictMsg : String :=
  "There is another collaborative session accessing the same file.\nThe synchronization between rooms is not supported and you might lose some of your changes."

/-- Embedding of `YDocWebSocketHandler.initialize` (the part that
resolves or constructs the room).  The Python method contains no `await`,
so under cooperative scheduling the lookup, the construction and the
`add_room` registration execute as one atomic step; the model makes that
step a single function application on the shared state.  Returns the new
state and the room bound to `self.room`. -/
def handler_init (room_id : String) (st : ServerState) : ServerState × Room :=
  match roomsLookup st.rooms room_id with
  | some r => (st, r)
  | none =>
    if 2 ≤ colonCount room_id then
      let fid := (decode_file_path room_id).2.2
      let st1 := if get_loaders_from_file_id st fid ≠ [] then
          emitEvent st room_id LOG_WARNING none (some conflictMsg)
        else st
      let st2 := (loadersGetItem st1 room_id fid).2
      let room : Room := .document
        { room_id := room_id, instance_id := st2.nextInstance, clients := [],
          cleaner := none, isInit := false, doc := 0 }
      ({ st2 with rooms := st2.rooms ++ [(room_id, room)],
                  nextInstance := st2.nextInstance + 1 }, room)
    else
      let room : Room := .transient room_id st.nextInstance
      ({ st with rooms := st.rooms ++ [(room_id, room)],
                 nextInstance := st.nextInstance + 1 }, room)

/-- Run a sequence of handler constructions (one per connecting client, in
the order the event loop serialises them), collecting the room each
connection was bound to. -/
def initMany : List String → ServerState → ServerState × List (String × Room)
  | [], st => (st, [])
  | id :: ids, st =>
    let (st1, r) := handler_init id st
    let (st2, rest) := initMany ids st1
    (st2, (id, r) :: rest)

/-- Server state at process start: empty registries. -/
def emptyServer : ServerState :=
  { rooms := [], loaders := [], fidPaths := [], nextInstance := 0, events := [] }

/-! ### Connection open, close and room cleanup -/

/-- Observable actions performed by `YDocWebSocketHandler.open`, in
program order.  `serveTask` is the `create_task(websocket_server.serve(self))`
call handing the connection to the room relay server (which registers the
connection as a client of the room and starts relaying its messages). -/
inductive OpenEvent
  | serveTask
  | closeConn (code : Nat) (reason : String)
  | cancelCleaner
  | roomInitCall
  | emitInfo (action : String) (msg : String)
deriving Repr, DecidableEq

/-- Embedding of `YDocWebSocketHandler.open` as the ordered trace of its
actions.  `serverSession` is the process-wide `SERVER_SESSION` token and
`sessionId` the `sessionId` query argument (defaulted to the empty string
when absent).  The serve task is created first; only for a Document Room
does the method compare the session token (calling `close(1003, ...)` on
mismatch and then falling through), cancel a pending cleaner, call
`room.initialize()` and emit the connected event. -/
def wsOpen (isDocumentRoom : Bool) (cleanerPending : Bool)
    (serverSession sessionId : String) : List OpenEvent :=
  [OpenEvent.serveTask] ++
    (if isDocumentRoom then
      (if serverSession ≠ sessionId then
        [OpenEvent.closeConn 1003 ("Document session " ++ sessionId ++ " expired")]
      else []) ++
      (if cleanerPending then [OpenEvent.cancelCleaner] else []) ++
      [OpenEvent.roomInitCall, OpenEvent.emitInfo "initialize" "New client connected."]
    else [])

/-- Modelled from the spec: `DocumentRoom.initialize` from the missing
`rooms.py` loads the initial content and replays the update log only on
the first call; once the room is live a further call makes no state
change (the `CLEANUP_SCHEDULED` to `LIVE` transition cancels the timer,
no other state changes). -/
def roomInit (loadedDoc : Nat) (r : DocumentRoom) : DocumentRoom :=
  if r.isInit then r else { r with isInit := true, doc := loadedDoc }

/-- Effect of `open` on a Document Room: cancel the cleanup task when one
is scheduled (`self.room.cleaner.cancel()`), then call
`room.initialize()`. -/
def openRoom (loadedDoc : Nat) (r : DocumentRoom) : DocumentRoom :=
  let r1 := match r.cleaner with
    | some _ => { r with cleaner := some TaskStatus.cancelled }
    | none => r
  roomInit loadedDoc r1

/-- Embedding of `YDocWebSocketHandler.on_close` for handler `h`: the
falsy sentinel `b""` is enqueued so the relay loop stops, and when the
room is a Document Room whose client list is exactly `[h]`, a cleanup
task is scheduled.  Returns the queue, the room, and whether this call
scheduled the cleanup. -/
def on_close (h : Nat) (q : List Msg) (r : Room) : List Msg × Room × Bool :=
  let q1 := q ++ [[]]
  match r with
  | .document d =>
    if d.clients = [h] then
      (q1, .document { d with cleaner := some TaskStatus.pending }, true)
    else
      (q1, r, false)
  | .transient _ _ => (q1, r, false)

/-- Registry removal (`websocket_server.delete_room`), a no-op when the
key is absent. -/
def delete_room (st : ServerState) (room_id : String) : ServerState :=
  { st with rooms := st.rooms.filter (fun p => p.1 != room_id) }

/-- Embedding of the body of `YDocWebSocketHandler._clean_room`, run at
the moment the grace-period sleep would return, guarded by the task
status: a cancelled task never resumes.  When `document_cleanup_delay`
is `none` the body returns before sleeping and nothing is destroyed.
Otherwise the room is removed from the registry and the deletion event is
emitted; then the code looks up the loader and, when its subscriber count
is zero, executes `del self.files[self._room_id]` — but the handler never
defines an attribute named `files` (`initialize` stores the mapping as
`self._file_loaders`), so that statement raises AttributeError and the
loader removal and its event never happen. -/
def clean_room (cleanupDelay : Option Nat) (cleaner : Option TaskStatus)
    (room_id : String) (st : ServerState) : Except String ServerState :=
  if cleaner ≠ some TaskStatus.pending then
    .ok st
  else if cleanupDelay = none then
    .ok st
  else
    let st1 := delete_room st room_id
    let st2 := emitEvent st1 room_id LOG_INFO (some "clean") (some "Room deleted.")
    let fid := (decode_file_path room_id).2.2
    let (file, st3) := loadersGetItem st2 room_id fid
    if file.subscriptions = 0 then
      .error "AttributeError: YDocWebSocketHandler object has no attribute files"
    else
      .ok st3

/-! ### Session endpoint -/

/-- State seen by `DocSessionHandler.put`: the file-id index (path to
identifier), the set of paths that resolve to an existing resource, and
the next fresh identifier the index would assign. -/
structure SessionState where
  index : List (String × Nat)
  existing : List String
  nextId : Nat
deriving Repr, DecidableEq

/-- Modelled from the spec: `BaseFileIdManager.get_id` returns the index
entry for a path when one exists. -/
def get_id (path : String) (s : SessionState) : Option Nat :=
  ((s.index.find? (fun p => p.1 == path)).map Prod.snd)

/-- Modelled from the spec: `BaseFileIdManager.index` creates the
identity-to-path entry when the path resolves to an existing resource and
returns `none` otherwise, leaving the index unchanged. -/
def indexPath (path : String) (s : SessionState) : Option Nat × SessionState :=
  if path ∈ s.existing then
    (some s.nextId,
      { s with index := s.index ++ [(path, s.nextId)], nextId := s.nextId + 1 })
  else
    (none, s)

/-- Response of the session endpoint: the HTTP status and the file
identifier returned in the body (absent on the 404 error path). -/
structure PutResponse where
  status : Nat
  fileId : Option Nat
deriving Repr, DecidableEq

/-- Embedding of `DocSessionHandler.put`: an existing index entry is
returned with status 200; otherwise indexing is attempted, failing with
404 when the path does not resolve to a resource and returning 201 with
the fresh identifier when it does. -/
def put (path : String) (s : SessionState) : PutResponse × SessionState :=
  match get_id path s with
  | some idx => ({ status := 200, fileId := some idx }, s)
  | none =>
    match indexPath path s with
    | (none, s1) => ({ status := 404, fileId := none }, s1)
    | (some idx, s1) => ({ status := 201, fileId := some idx }, s1)

/-! ### Lemmas about the connected users directory -/

theorem usersLookup_nil (uid : Nat) : usersLookup [] uid = none := rfl

theorem usersLookup_cons (p : Nat × String) (tl : ConnectedUsers) (uid : Nat) :
    usersLookup (p :: tl) uid = if p.1 = uid then some p.2 else usersLookup tl uid := by
  by_cases h : p.1 = uid
  · rw [if_pos h]
    unfold usersLookup
    rw [List.find?_cons_of_pos _ (by simpa using h)]
    rfl
  · rw [if_neg h]
    unfold usersLookup
    rw [List.find?_cons_of_neg _ (by simpa using h)]

theorem usersErase_cons (p : Nat × String) (tl : ConnectedUsers) (v : Nat) :
    usersErase (p :: tl) v =
      if p.1 = v then usersErase tl v else p :: usersErase tl v := by
  by_cases h : p.1 = v <;> simp [usersErase, List.filter_cons, h]

theorem usersLookup_erase (cu : ConnectedUsers) (v uid : Nat) :
    usersLookup (usersErase cu v) uid = if uid = v then none else usersLookup cu uid := by
  induction cu with
  | nil =>
    by_cases h : uid = v <;> simp [usersErase, usersLookup, h]
  | cons p tl ih =>
    rw [usersErase_cons]
    by_cases hpv : p.1 = v
    · rw [if_pos hpv, ih, usersLookup_cons]
      by_cases huv : uid = v
      · simp [huv]
      · have hpu : ¬ p.1 = uid := fun hh => huv (by rw [← hh, hpv])
        simp [hpu, huv]
    · rw [if_neg hpv, usersLookup_cons, ih, usersLookup_cons]
      by_cases huv : uid = v
      · have hpu : ¬ p.1 = uid := fun hh => hpv (by rw [hh, huv])
        simp [hpu, huv, hpv]
      · by_cases hpu : p.1 = uid <;> simp [hpu, huv]

theorem usersLookup_insert (cu : ConnectedUsers) (v : Nat) (name : String) (uid : Nat) :
    usersLookup (usersInsert cu v name) uid =
      if uid = v then some name else usersLookup cu uid := by
  induction cu with
  | nil =>
    by_cases h : uid = v <;>
      simp [usersInsert, usersLookup_cons, usersLookup_nil, h, Ne.symm]
  | cons p tl ih =>
    unfold usersInsert
    by_cases hpv : p.1 = v
    · rw [if_pos hpv, usersLookup_cons, usersLookup_cons]
      by_cases huv : uid = v
      · simp [huv]
      · have hpu : ¬ p.1 = uid := fun hh => huv (by rw [← hh, hpv])
        have hvu : ¬ v = uid := fun hh => huv hh.symm
        simp [hpu, huv, hvu]
    · rw [if_neg hpv, usersLookup_cons, usersLookup_cons, ih]
      by_cases hpu : p.1 = uid <;> by_cases huv : uid = v
      · exact absurd (hpu.trans huv) hpv
      · simp [hpu, huv]
      · simp [hpu, huv, hpv]
      · simp [hpu, huv]

theorem removeUsers_lookup_none (rs : List Nat) (cu : ConnectedUsers) (uid : Nat)
    (h : usersLookup cu uid = none) :
    usersLookup (removeUsers rs cu) uid = none := by
  induction rs generalizing cu with
  | nil => exact h
  | cons r tl ih =>
    unfold removeUsers
    apply ih
    by_cases hs : (usersLookup cu r).isSome
    · rw [if_pos hs, usersLookup_erase]
      by_cases huv : uid = r <;> simp [huv, h]
    · rw [if_neg hs]
      exact h

theorem removeUsers_lookup_mem (rs : List Nat) (cu : ConnectedUsers) (uid : Nat)
    (h : uid ∈ rs) :
    usersLookup (removeUsers rs cu) uid = none := by
  induction rs generalizing cu with
  | nil => exact absurd h (List.not_mem_nil _)
  | cons r tl ih =>
    unfold removeUsers
    by_cases huv : uid = r
    · subst huv
      apply removeUsers_lookup_none
      by_cases hs : (usersLookup cu uid).isSome
      · rw [if_pos hs, usersLookup_erase, if_pos rfl]
      · rw [if_neg hs]
        exact Option.not_isSome_iff_eq_none.mp hs
    · have htl : uid ∈ tl := by
        cases List.mem_cons.mp h with
        | inl hh => exact absurd hh huv
        | inr hh => exact hh
      exact ih _ htl

theorem removeUsers_lookup_not_mem (rs : List Nat) (cu : ConnectedUsers) (uid : Nat)
    (h : uid ∉ rs) :
    usersLookup (removeUsers rs cu) uid = usersLookup cu uid := by
  induction rs generalizing cu with
  | nil => rfl
  | cons r tl ih =>
    have huv : ¬ uid = r := fun hh => h (hh ▸ List.mem_cons_self _ _)
    have htl : uid ∉ tl := fun hh => h (List.mem_cons_of_mem _ hh)
    unfold removeUsers
    rw [ih _ htl]
    by_cases hs : (usersLookup cu r).isSome
    · rw [if_pos hs, usersLookup_erase, if_neg huv]
    · rw [if_neg hs]

theorem addUsers_lookup_isSome_mono (adds : List (Nat × Option String))
    (cu : ConnectedUsers) (uid : Nat)
    (h : (usersLookup cu uid).isSome) :
    (usersLookup (addUsers adds cu) uid).isSome := by
  induction adds generalizing cu with
  | nil => exact h
  | cons p tl ih =>
    obtain ⟨u, s⟩ := p
    cases s with
    | some name =>
      apply ih
      rw [usersLookup_insert]
      by_cases huv : uid = u <;> simp [huv, h]
    | none => exact ih _ h

theorem addUsers_lookup_isSome (adds : List (Nat × Option String))
    (cu : ConnectedUsers) (uid : Nat) (name : String)
    (h : (uid, some name) ∈ adds) :
    (usersLookup (addUsers adds cu) uid).isSome := by
  induction adds generalizing cu with
  | nil => exact absurd h (List.not_mem_nil _)
  | cons p tl ih =>
    obtain ⟨u, s⟩ := p
    cases List.mem_cons.mp h with
    | inl hh =>
      cases hh
      show (usersLookup (addUsers tl (usersInsert cu uid name)) uid).isSome = true
      apply addUsers_lookup_isSome_mono
      rw [usersLookup_insert, if_pos rfl]
      rfl
    | inr hh => cases s with
      | some nm => exact ih _ hh
      | none => exact ih _ hh

/-! ### Behavior of on_message, the iterator and the close sentinel -/

theorem on_message_ok (decode : Msg → AwarenessChanges) (t : Nat) (rest : Msg)
    (st : HandlerState) :
    on_message decode (t :: rest) st =
      .ok { connected_users :=
              if t = AWARENESS then applyAwareness (decode rest) st.connected_users
              else st.connected_users,
            queue := st.queue ++ [t :: rest],
            ypatch_nb := st.ypatch_nb + 1 } := by
  by_cases ht : t = AWARENESS <;> simp [on_message, ht]

theorem feed_queue (decode : Msg → AwarenessChanges) (frames : List Msg)
    (st : HandlerState) (h : ∀ m ∈ frames, m ≠ []) :
    ∃ st', feed decode frames st = .ok st' ∧ st'.queue = st.queue ++ frames := by
  induction frames generalizing st with
  | nil => exact ⟨st, rfl, by simp⟩
  | cons m tl ih =>
    match m, h m (List.mem_cons_self _ _) with
    | t :: rest, _ =>
      obtain ⟨st', h1, h2⟩ := ih
        { connected_users :=
            if t = AWARENESS then applyAwareness (decode rest) st.connected_users
            else st.connected_users,
          queue := st.queue ++ [t :: rest],
          ypatch_nb := st.ypatch_nb + 1 }
        (fun x hx => h x (List.mem_cons_of_mem _ hx))
      refine ⟨st', ?_, ?_⟩
      · rw [feed, on_message_ok]
        exact h1
      · rw [h2]
        simp

theorem drain_append_sentinel (l : List Msg) (h : ∀ m ∈ l, m ≠ []) :
    drain (l ++ [[]]) = l := by
  induction l with
  | nil => rfl
  | cons m tl ih =>
    have hm : m ≠ [] := h m (List.mem_cons_self _ _)
    simp only [List.cons_append, drain, anextStep, if_neg hm]
    exact congrArg (fun l => m :: l) (ih (fun x hx => h x (List.mem_cons_of_mem _ hx)))

/-! ### Registry lemmas -/

theorem roomsLookup_append_some (rs more : List (String × Room)) (x : String)
    (r : Room) (h : roomsLookup rs x = some r) :
    roomsLookup (rs ++ more) x = some r := by
  unfold roomsLookup at *
  cases hf : rs.find? (fun p => p.1 == x) with
  | none => rw [hf] at h; exact absurd h (by simp)
  | some p =>
    rw [hf] at h
    rw [List.find?_append, hf]
    simpa using h

theorem roomsLookup_append_self (rs : List (String × Room)) (x : String) (r : Room)
    (h : roomsLookup rs x = none) :
    roomsLookup (rs ++ [(x, r)]) x = some r := by
  unfold roomsLookup at *
  have hf : rs.find? (fun p => p.1 == x) = none := Option.map_eq_none'.mp h
  rw [List.find?_append, hf]
  simp

theorem roomKeys_not_mem_of_lookup_none (rs : List (String × Room)) (x : String)
    (h : roomsLookup rs x = none) : x ∉ rs.map Prod.fst := by
  intro hmem
  obtain ⟨p, hp, hpx⟩ := List.mem_map.mp hmem
  have hf : rs.find? (fun p => p.1 == x) = none := Option.map_eq_none'.mp h
  have := List.find?_eq_none.mp hf p hp
  simp [hpx] at this

theorem emitEvent_rooms (st : ServerState) (room_id : String) (level : Nat)
    (action msg : Option String) :
    (emitEvent st room_id level action msg).rooms = st.rooms := rfl

theorem emitEvent_nextInstance (st : ServerState) (room_id : String) (level : Nat)
    (action msg : Option String) :
    (emitEvent st room_id level action msg).nextInstance = st.nextInstance := rfl

theorem loadersGetItem_rooms (st : ServerState) (key fid : String) :
    (loadersGetItem st key fid).2.rooms = st.rooms := by
  unfold loadersGetItem
  split <;> rfl

theorem loadersGetItem_events (st : ServerState) (key fid : String) :
    (loadersGetItem st key fid).2.events = st.events := by
  unfold loadersGetItem
  split <;> rfl

/-- Characterization of `handler_init`: either the room already exists
and the call returns it with the state untouched, or it does not and the
call appends exactly one new registry entry whose variant follows the
separator count of the identity. -/
theorem handler_init_char (room_id : String) (st : ServerState) :
    (roomsLookup st.rooms room_id = some (handler_init room_id st).2 ∧
     (handler_init room_id st).1 = st) ∨
    (roomsLookup st.rooms room_id = none ∧
     (handler_init room_id st).1.rooms =
       st.rooms ++ [(room_id, (handler_init room_id st).2)] ∧
     ((handler_init room_id st).2.isDocument = true ↔ 2 ≤ colonCount room_id)) := by
  cases hl : roomsLookup st.rooms room_id with
  | some r =>
    left
    unfold handler_init
    rw [hl]
    exact ⟨rfl, rfl⟩
  | none =>
    right
    refine ⟨rfl, ?_, ?_⟩ <;> unfold handler_init <;> rw [hl]
    · by_cases hc : 2 ≤ colonCount room_id
      · simp only [if_pos hc]
        rw [loadersGetItem_rooms]
        by_cases hconf :
            get_loaders_from_file_id st (decode_file_path room_id).2.2 ≠ [] <;>
          simp [hconf, emitEvent_rooms]
      · simp only [if_neg hc]
    · by_cases hc : 2 ≤ colonCount room_id
      · simp [if_pos hc, Room.isDocument, hc]
      · simp [if_neg hc, Room.isDocument, hc]

theorem handler_init_registers (room_id : String) (st : ServerState) :
    roomsLookup (handler_init room_id st).1.rooms room_id =
      some (handler_init room_id st).2 := by
  rcases handler_init_char room_id st with ⟨hl, hst⟩ | ⟨hl, hr, _⟩
  · rw [hst]; exact hl
  · rw [hr]; exact roomsLookup_append_self _ _ _ hl

theorem handler_init_lookup_mono (room_id x : String) (r : Room) (st : ServerState)
    (h : roomsLookup st.rooms x = some r) :
    roomsLookup (handler_init room_id st).1.rooms x = some r := by
  rcases handler_init_char room_id st with ⟨_, hst⟩ | ⟨_, hr, _⟩
  · rw [hst]; exact h
  · rw [hr]; exact roomsLookup_append_some _ _ _ _ h

theorem initMany_lookup_mono (ids : List String) (st : ServerState) (x : String)
    (r : Room) (h : roomsLookup st.rooms x = some r) :
    roomsLookup (initMany ids st).1.rooms x = some r := by
  induction ids generalizing st with
  | nil => exact h
  | cons id tl ih => exact ih _ (handler_init_lookup_mono id x r st h)

/-- Invariant carried through any sequence of handler constructions:
registry keys stay distinct, every connection receives the room found in
the registry afterwards, and every registered room has the variant
dictated by its identity shape. -/
theorem initMany_invariant (ids : List String) (st : ServerState)
    (hnd : (st.rooms.map Prod.fst).Nodup)
    (hvar : ∀ p ∈ st.rooms, (p.2.isDocument = true ↔ 2 ≤ colonCount p.1)) :
    ((initMany ids st).1.rooms.map Prod.fst).Nodup ∧
    (∀ pr ∈ (initMany ids st).2,
        roomsLookup (initMany ids st).1.rooms pr.1 = some pr.2) ∧
    (∀ p ∈ (initMany ids st).1.rooms,
        (p.2.isDocument = true ↔ 2 ≤ colonCount p.1)) := by
  induction ids generalizing st with
  | nil => exact ⟨hnd, by simp [initMany], hvar⟩
  | cons id tl ih =>
    have hnd1 : ((handler_init id st).1.rooms.map Prod.fst).Nodup := by
      rcases handler_init_char id st with ⟨_, hst⟩ | ⟨hl, hr, _⟩
      · rw [hst]; exact hnd
      · rw [hr]
        rw [List.map_append]
        apply List.Nodup.append hnd (List.nodup_singleton _)
        intro a ha hb
        simp only [List.map_cons, List.map_nil, List.mem_singleton] at hb
        exact roomKeys_not_mem_of_lookup_none _ _ hl (hb ▸ ha)
    have hvar1 : ∀ p ∈ (handler_init id st).1.rooms,
        (p.2.isDocument = true ↔ 2 ≤ colonCount p.1) := by
      rcases handler_init_char id st with ⟨_, hst⟩ | ⟨hl, hr, hv⟩
      · rw [hst]; exact hvar
      · rw [hr]
        intro p hp
        rcases List.mem_append.mp hp with hp1 | hp1
        · exact hvar p hp1
        · rcases List.mem_singleton.mp hp1 with rfl
          exact hv
    obtain ⟨ihnd, ihres, ihvar⟩ := ih (handler_init id st).1 hnd1 hvar1
    refine ⟨?_, ?_, ?_⟩
    · simpa [initMany] using ihnd
    · intro pr hpr
      simp only [initMany, List.mem_cons] at hpr
      rcases hpr with rfl | hpr
      · simpa [initMany] using
          initMany_lookup_mono tl (handler_init id st).1 id
            (handler_init id st).2 (handler_init_registers id st)
      · simpa [initMany] using ihres pr hpr
    · simpa [initMany] using ihvar

/-! ### Claim theorems -/

/-- C6: for every inbound frame whose first byte is the awareness message
type, `on_message` updates the process-wide connected users directory —
inserting each added participant whose state carries a user name and
deleting each removed participant that is present — and the frame is
still enqueued for relay to the room regardless of the directory update. -/
theorem C6_awareness_updates_directory_and_relays
    (decode : Msg → AwarenessChanges) (rest : Msg) (st : HandlerState) :
    ∃ st', on_message decode (AWARENESS :: rest) st = .ok st' ∧
      st'.queue = st.queue ++ [AWARENESS :: rest] ∧
      st'.connected_users = applyAwareness (decode rest) st.connected_users ∧
      (∀ uid ∈ (decode rest).removed, usersLookup st'.connected_users uid = none) ∧
      (∀ uid name, (uid, some name) ∈ (decode rest).added →
        uid ∉ (decode rest).removed →
        (usersLookup st'.connected_users uid).isSome) := by
  refine ⟨{ connected_users := applyAwareness (decode rest) st.connected_users,
            queue := st.queue ++ [AWARENESS :: rest],
            ypatch_nb := st.ypatch_nb + 1 },
          by simp [on_message], rfl, rfl, ?_, ?_⟩
  · intro uid hmem
    exact removeUsers_lookup_mem _ _ _ hmem
  · intro uid name hadd hnrem
    show (usersLookup (removeUsers (decode rest).removed
      (addUsers (decode rest).added st.connected_users)) uid).isSome = true
    rw [removeUsers_lookup_not_mem _ _ _ hnrem]
    exact addUsers_lookup_isSome _ _ _ _ hadd

/-- Witness for C6 at a concrete awareness frame adding user 7 named
alice and removing the present user 9. -/
theorem C6_awareness_updates_directory_and_relays_witness :
    ∃ st', on_message (fun _ => { added := [(7, some "alice")], removed := [9] })
        (AWARENESS :: [5])
        { connected_users := [(9, "bob")], queue := [], ypatch_nb := 0 } = .ok st' ∧
      st'.queue = ([] : List Msg) ++ [AWARENESS :: [5]] ∧
      st'.connected_users =
        applyAwareness { added := [(7, some "alice")], removed := [9] } [(9, "bob")] ∧
      (∀ uid ∈ ({ added := [(7, some "alice")], removed := [9] } :
          AwarenessChanges).removed,
        usersLookup st'.connected_users uid = none) ∧
      (∀ uid name,
        (uid, some name) ∈ ({ added := [(7, some "alice")], removed := [9] } :
          AwarenessChanges).added →
        uid ∉ ({ added := [(7, some "alice")], removed := [9] } :
          AwarenessChanges).removed →
        (usersLookup st'.connected_users uid).isSome) :=
  C6_awareness_updates_directory_and_relays
    (fun _ => { added := [(7, some "alice")], removed := [9] }) [5]
    { connected_users := [(9, "bob")], queue := [], ypatch_nb := 0 }

/-- C8: messages from a single connection are relayed in arrival order —
delivering the frames to `on_message` in order and then closing makes the
async iterator yield exactly those frames, in the same order, up to the
end-of-stream sentinel appended by `on_close`. -/
theorem C8_per_connection_fifo (decode : Msg → AwarenessChanges)
    (frames : List Msg) (cu : ConnectedUsers) (n : Nat)
    (h : ∀ m ∈ frames, m ≠ []) :
    ∃ st', feed decode frames
        { connected_users := cu, queue := [], ypatch_nb := n } = .ok st' ∧
      st'.queue = frames ∧
      drain (st'.queue ++ [[]]) = frames := by
  obtain ⟨st', h1, h2⟩ := feed_queue decode frames
    { connected_users := cu, queue := [], ypatch_nb := n } h
  have hq : st'.queue = frames := by simpa using h2
  exact ⟨st', h1, hq, by rw [hq]; exact drain_append_sentinel frames h⟩

/-- Witness for C8 at a concrete frame sequence. -/
theorem C8_per_connection_fifo_witness :
    ∃ st', feed (fun _ => { added := [], removed := [] }) [[0, 3], [1], [0, 7]]
        { connected_users := [], queue := [], ypatch_nb := 0 } = .ok st' ∧
      st'.queue = [[0, 3], [1], [0, 7]] ∧
      drain (st'.queue ++ [[]]) = [[0, 3], [1], [0, 7]] :=
  C8_per_connection_fifo (fun _ => { added := [], removed := [] })
    [[0, 3], [1], [0, 7]] [] 0 (by decide)

/-- C9 counterexample: a zero-length binary frame is never enqueued by
`on_message` — evaluating `message[0]` raises IndexError first, so the
claimed path (an empty frame enqueued by `on_message` acting as the
end-of-stream sentinel) does not exist. -/
theorem C9_counterexample :
    on_message (fun _ => { added := [], removed := [] }) []
        { connected_users := [], queue := [], ypatch_nb := 0 } =
      .error "IndexError: index out of range" := rfl

/-- C9 amended: the iterator treats any falsy (empty) queue entry as the
end-of-stream sentinel, and `on_close` enqueues that sentinel; but
`on_message` never enqueues an empty frame, because reading the first
byte of a zero-length frame raises IndexError before the enqueue — so a
client-sent empty frame does not cleanly terminate the relay loop via
the sentinel path. -/
theorem C9_empty_sentinel_behavior :
    (∀ q : List Msg, drain ([] :: q) = []) ∧
    (∀ (decode : Msg → AwarenessChanges) (m : Msg) (st st' : HandlerState),
        on_message decode m st = .ok st' → m ≠ []) ∧
    (∀ (h : Nat) (q : List Msg) (r : Room), (on_close h q r).1 = q ++ [[]]) := by
  refine ⟨fun q => rfl, ?_, ?_⟩
  · intro decode m st st' hok hniL
    subst hniL
    exact Except.noConfusion hok
  · intro h q r
    cases r with
    | document d =>
      by_cases hc : d.clients = [h] <;> simp [on_close, hc]
    | transient id i => rfl

/-- Witness for C9 amended: a nonempty frame is accepted by
`on_message`, so the contrapositive applies at a concrete input. -/
theorem C9_empty_sentinel_behavior_witness :
    ([1] : Msg) ≠ [] :=
  C9_empty_sentinel_behavior.2.1 (fun _ => { added := [], removed := [] }) [1]
    { connected_users := [], queue := [], ypatch_nb := 0 }
    { connected_users := [], queue := [[1]], ypatch_nb := 1 } (by rfl)

/-- C10: for a Transient Room, `open` performs none of the Document-Room
steps — no session-token validation, no cleanup-timer cancellation, no
room initialization — so the connection is accepted and begins relaying
regardless of the supplied session id (including none at all, the empty
string default). -/
theorem C10_transient_open_skips_document_steps
    (cleanerPending : Bool) (serverSession sessionId : String) :
    wsOpen false cleanerPending serverSession sessionId = [OpenEvent.serveTask] := by
  simp [wsOpen]

/-- C2 counterexample: with a mismatched session token the handler does
call `close(1003, ...)`, but the serve task handing the connection to the
room is started before the check and the room is still initialized
afterwards, so room interaction does occur and the connection is not kept
out of the room client set. -/
theorem C2_counterexample :
    wsOpen true false "server-token" "stale" =
      [OpenEvent.serveTask,
       OpenEvent.closeConn 1003 "Document session stale expired",
       OpenEvent.roomInitCall,
       OpenEvent.emitInfo "initialize" "New client connected."] ∧
    (wsOpen true false "server-token" "stale").head? = some OpenEvent.serveTask ∧
    OpenEvent.roomInitCall ∈ wsOpen true false "server-token" "stale" := by
  refine ⟨?_, ?_, ?_⟩ <;> simp [wsOpen]

/-- C2 amended: on a session-token mismatch the handler initiates a close
with the distinguished code 1003, but only after the serve task has been
started, and it then proceeds to cancel any pending cleaner, initialize
the room and emit the connected event — the connection is handed to the
room regardless of the mismatch. -/
theorem C2_mismatch_closes_but_serves (cleanerPending : Bool)
    (serverSession sessionId : String) (h : serverSession ≠ sessionId) :
    wsOpen true cleanerPending serverSession sessionId =
      [OpenEvent.serveTask,
       OpenEvent.closeConn 1003 ("Document session " ++ sessionId ++ " expired")] ++
      (if cleanerPending then [OpenEvent.cancelCleaner] else []) ++
      [OpenEvent.roomInitCall,
       OpenEvent.emitInfo "initialize" "New client connected."] := by
  simp [wsOpen, h]

/-- Witness for C2 amended at a concrete mismatched token. -/
theorem C2_mismatch_closes_but_serves_witness :
    wsOpen true false "a" "b" =
      [OpenEvent.serveTask,
       OpenEvent.closeConn 1003 ("Document session " ++ "b" ++ " expired")] ++
      (if false then [OpenEvent.cancelCleaner] else []) ++
      [OpenEvent.roomInitCall,
       OpenEvent.emitInfo "initialize" "New client connected."] :=
  C2_mismatch_closes_but_serves false "a" "b" (by decide)

/-- C1: over any sequence of connections (each `initialize` call is one
atomic step, since the method suspends nowhere), the registry holds at
most one room per identity, every connection is bound to the room the
registry holds for its identity — so two connections for the same
identity always receive the same instance — and the variant of each
constructed room follows the two-separator rule. -/
theorem C1_single_room_per_identity (ids : List String) :
    (((initMany ids emptyServer).1.rooms.map Prod.fst).Nodup) ∧
    (∀ pr ∈ (initMany ids emptyServer).2,
        roomsLookup (initMany ids emptyServer).1.rooms pr.1 = some pr.2) ∧
    (∀ pr ∈ (initMany ids emptyServer).2, ∀ qr ∈ (initMany ids emptyServer).2,
        pr.1 = qr.1 → pr.2 = qr.2) ∧
    (∀ p ∈ (initMany ids emptyServer).1.rooms,
        (p.2.isDocument = true ↔ 2 ≤ colonCount p.1)) := by
  obtain ⟨hnd, hres, hvar⟩ := initMany_invariant ids emptyServer
    (by simp [emptyServer]) (by simp [emptyServer])
  refine ⟨hnd, hres, ?_, hvar⟩
  intro pr hpr qr hqr heq
  have h1 := hres pr hpr
  have h2 := hres qr hqr
  rw [heq] at h1
  rw [h1] at h2
  exact (Option.some.injEq _ _ ▸ h2).symm ▸ rfl

/-- Witness for C1: two connections for the same document identity. -/
theorem C1_single_room_per_identity_witness :
    (((initMany ["a:b:c", "a:b:c"] emptyServer).1.rooms.map Prod.fst).Nodup) ∧
    (∀ pr ∈ (initMany ["a:b:c", "a:b:c"] emptyServer).2,
        roomsLookup (initMany ["a:b:c", "a:b:c"] emptyServer).1.rooms pr.1 =
          some pr.2) ∧
    (∀ pr ∈ (initMany ["a:b:c", "a:b:c"] emptyServer).2,
        ∀ qr ∈ (initMany ["a:b:c", "a:b:c"] emptyServer).2,
        pr.1 = qr.1 → pr.2 = qr.2) ∧
    (∀ p ∈ (initMany ["a:b:c", "a:b:c"] emptyServer).1.rooms,
        (p.2.isDocument = true ↔ 2 ≤ colonCount p.1)) :=
  C1_single_room_per_identity ["a:b:c", "a:b:c"]

/-- C7: when a Document Room is created for an identity whose decoded
file identity is already served by a loader under a different room
identity, the room is still constructed and registered normally and a
warning-level event with the conflict message is emitted — the conflict
is never rejected as an error. -/
theorem C7_same_file_conflict_warns (st : ServerState) (room_id : String)
    (hnew : roomsLookup st.rooms room_id = none)
    (hdoc : 2 ≤ colonCount room_id)
    (hconf : get_loaders_from_file_id st ((decode_file_path room_id).2.2) ≠ []) :
    roomsLookup (handler_init room_id st).1.rooms room_id =
      some (handler_init room_id st).2 ∧
    (handler_init room_id st).2.isDocument = true ∧
    ∃ e ∈ (handler_init room_id st).1.events,
      e.level = LOG_WARNING ∧ e.room = room_id ∧ e.msg = some conflictMsg := by
  refine ⟨handler_init_registers room_id st, ?_, ?_⟩
  · rcases handler_init_char room_id st with ⟨hl, _⟩ | ⟨_, _, hv⟩
    · rw [hnew] at hl; exact Option.noConfusion hl
    · exact hv.mpr hdoc
  · unfold handler_init
    rw [hnew]
    simp only [if_pos hdoc, if_pos hconf]
    rw [loadersGetItem_events]
    refine ⟨{ level := LOG_WARNING, room := room_id,
              path := get_path st (decode_file_path room_id).2.2,
              action := none, msg := some conflictMsg }, ?_, rfl, rfl, rfl⟩
    show _ ∈ (emitEvent st room_id LOG_WARNING none (some conflictMsg)).events
    unfold emitEvent
    simp

/-- Concrete server state already holding a loader for file identity `c`
under the room identity `x:y:c`, used as input of the C7 witness. -/
def conflictServer : ServerState :=
  { rooms := [], loaders := [("x:y:c", { file_id := "c", subscriptions := 1 })],
    fidPaths := [], nextInstance := 0, events := [] }

/-- Witness for C7: a loader for file identity `c` registered under the
identity `x:y:c` while a second room `a:b:c` is created. -/
theorem C7_same_file_conflict_warns_witness :
    roomsLookup (handler_init "a:b:c" conflictServer).1.rooms "a:b:c" =
      some (handler_init "a:b:c" conflictServer).2 ∧
    (handler_init "a:b:c" conflictServer).2.isDocument = true ∧
    ∃ e ∈ (handler_init "a:b:c" conflictServer).1.events,
      e.level = LOG_WARNING ∧ e.room = "a:b:c" ∧ e.msg = some conflictMsg :=
  C7_same_file_conflict_warns conflictServer "a:b:c" rfl (by decide)
    (by rw [show get_loaders_from_file_id conflictServer
          (decode_file_path "a:b:c").2.2 =
          [{ file_id := "c", subscriptions := 1 }] from rfl]
        simp)

/-- C3: `on_close` schedules the cleanup task exactly when the room
client list equals just the closing client; and a client that attaches
while the cleanup is pending cancels it, leaving the client list, the
document state and the initialized flag unchanged — and the cancelled
cleanup task never tears the room down, for any cleanup delay. -/
theorem C3_cleanup_schedule_and_cancel (d : DocumentRoom) (h : Nat) (q : List Msg) :
    ((on_close h q (.document d)).2.2 = true ↔ d.clients = [h]) ∧
    (d.clients = [h] →
      (on_close h q (.document d)).2.1 =
        .document { d with cleaner := some TaskStatus.pending }) ∧
    (∀ loadedDoc : Nat, d.cleaner = some TaskStatus.pending → d.isInit = true →
      (openRoom loadedDoc d).cleaner = some TaskStatus.cancelled ∧
      (openRoom loadedDoc d).doc = d.doc ∧
      (openRoom loadedDoc d).clients = d.clients ∧
      (openRoom loadedDoc d).isInit = true ∧
      ∀ (delay : Option Nat) (st : ServerState),
        clean_room delay (openRoom loadedDoc d).cleaner d.room_id st = .ok st) := by
  refine ⟨?_, ?_, ?_⟩
  · by_cases hc : d.clients = [h] <;> simp [on_close, hc]
  · intro hc
    simp [on_close, hc]
  · intro loadedDoc hcl hinit
    have hopen : openRoom loadedDoc d = { d with cleaner := some TaskStatus.cancelled } := by
      simp [openRoom, hcl, roomInit, hinit]
    rw [hopen]
    refine ⟨rfl, rfl, rfl, hinit, ?_⟩
    intro delay st
    simp [clean_room]

/-- Concrete Document Room with one connected client, used as input of
the C3 witness. -/
def lastClientRoom : DocumentRoom :=
  { room_id := "a:b:c", instance_id := 0, clients := [5],
    cleaner := none, isInit := true, doc := 3 }

/-- Concrete empty Document Room with a pending cleanup task, used as
input of the C3 witness. -/
def pendingCleanupRoom : DocumentRoom :=
  { room_id := "a:b:c", instance_id := 0, clients := [],
    cleaner := some TaskStatus.pending, isInit := true, doc := 3 }

/-- Witness for C3 at a concrete room with one client and then a pending
cleanup. -/
theorem C3_cleanup_schedule_and_cancel_witness :
    (((on_close 5 [] (.document lastClientRoom)).2.2 = true ↔
        lastClientRoom.clients = [5]) ∧
     (lastClientRoom.clients = [5] →
       (on_close 5 [] (.document lastClientRoom)).2.1 =
         .document { lastClientRoom with cleaner := some TaskStatus.pending })) ∧
    ((openRoom 9 pendingCleanupRoom).cleaner = some TaskStatus.cancelled ∧
     (openRoom 9 pendingCleanupRoom).doc = pendingCleanupRoom.doc ∧
     clean_room (some 60) (openRoom 9 pendingCleanupRoom).cleaner
       pendingCleanupRoom.room_id emptyServer = .ok emptyServer) := by
  have h1 := C3_cleanup_schedule_and_cancel lastClientRoom 5 []
  have h2 := C3_cleanup_schedule_and_cancel pendingCleanupRoom 5 []
  obtain ⟨hcl, hdoc, _, _, hcr⟩ := h2.2.2 9 rfl rfl
  exact ⟨⟨h1.1, fun hh => h1.2.1 hh⟩, hcl, hdoc, hcr (some 60) emptyServer⟩

/-- C4: when the cleanup timer fires, the room is removed from the
registry, but the loader teardown step is broken — with a loader at zero
subscriptions the code executes `del self.files[...]` on an attribute
that was never defined (the handler stores the mapping as
`_file_loaders`), raising AttributeError — and no statement of the
cleanup closes the update-log writer.  The disabled case holds: with
`document_cleanup_delay = None` the cleanup never destroys anything. -/
theorem C4_clean_room_attribute_error :
    (clean_room (some 60) (some TaskStatus.pending) "text:file:abc"
        { rooms := [("text:file:abc",
            Room.document { room_id := "text:file:abc", instance_id := 0,
                            clients := [], cleaner := some TaskStatus.pending,
                            isInit := true, doc := 0 })],
          loaders := [("text:file:abc", { file_id := "abc", subscriptions := 0 })],
          fidPaths := [("abc", "abc.txt")], nextInstance := 1, events := [] } =
      .error "AttributeError: YDocWebSocketHandler object has no attribute files") ∧
    (∀ (st : ServerState) (cleaner : Option TaskStatus) (room_id : String),
        clean_room none cleaner room_id st = .ok st) := by
  constructor
  · rfl
  · intro st cleaner room_id
    unfold clean_room
    split
    · rfl
    · rw [if_pos rfl]

/-- C5: the session endpoint returns 201 with a fresh identifier on the
first call for an existing path, 200 with the identical identifier and an
unchanged index on every repeat call, and 404 with the index unchanged
when the path does not resolve to a resource. -/
theorem C5_session_endpoint (s : SessionState) (path : String)
    (hfresh : ∀ q ∈ s.index, q.2 < s.nextId) :
    ((get_id path s = none ∧ path ∈ s.existing) →
       (put path s).1.status = 201 ∧
       (put path s).1.fileId = some s.nextId ∧
       (∀ q ∈ s.index, q.2 ≠ s.nextId) ∧
       (put path (put path s).2).1.status = 200 ∧
       (put path (put path s).2).1.fileId = some s.nextId ∧
       (put path (put path s).2).2 = (put path s).2) ∧
    (∀ idx, get_id path s = some idx →
       (put path s).1.status = 200 ∧ (put path s).1.fileId = some idx ∧
       (put path s).2 = s) ∧
    ((get_id path s = none ∧ path ∉ s.existing) →
       (put path s).1.status = 404 ∧ (put path s).1.fileId = none ∧
       (put path s).2 = s) := by
  refine ⟨?_, ?_, ?_⟩
  · rintro ⟨hnone, hex⟩
    have hidx : indexPath path s =
        (some s.nextId,
         { s with index := s.index ++ [(path, s.nextId)], nextId := s.nextId + 1 }) := by
      simp [indexPath, hex]
    have hput : put path s =
        ({ status := 201, fileId := some s.nextId },
         { s with index := s.index ++ [(path, s.nextId)], nextId := s.nextId + 1 }) := by
      unfold put
      rw [hnone, hidx]
    have hfindnone : s.index.find? (fun p => p.1 == path) = none := by
      unfold get_id at hnone
      exact Option.map_eq_none'.mp hnone
    have hget2 : get_id path
        { s with index := s.index ++ [(path, s.nextId)], nextId := s.nextId + 1 } =
        some s.nextId := by
      unfold get_id
      rw [List.find?_append, hfindnone]
      simp
    have hput2 : put path (put path s).2 =
        ({ status := 200, fileId := some s.nextId }, (put path s).2) := by
      rw [hput]
      unfold put
      rw [hget2]
    refine ⟨by rw [hput], by rw [hput], fun q hq => (hfresh q hq).ne, ?_, ?_, ?_⟩ <;>
      rw [hput2]
  · intro idx hidx
    have hput : put path s = ({ status := 200, fileId := some idx }, s) := by
      unfold put
      rw [hidx]
    exact ⟨by rw [hput], by rw [hput], by rw [hput]⟩
  · rintro ⟨hnone, hnex⟩
    have hidx : indexPath path s = (none, s) := by
      simp [indexPath, hnex]
    have hput : put path s = ({ status := 404, fileId := none }, s) := by
      unfold put
      rw [hnone, hidx]
    exact ⟨by rw [hput], by rw [hput], by rw [hput]⟩

/-- Witness for C5: a fresh path that exists, its repeat call, and a
missing path, on a concrete state. -/
theorem C5_session_endpoint_witness :
    ((put "a.txt" { index := [], existing := ["a.txt"], nextId := 0 }).1.status = 201 ∧
     (put "a.txt" (put "a.txt"
        { index := [], existing := ["a.txt"], nextId := 0 }).2).1.status = 200 ∧
     (put "a.txt" (put "a.txt"
        { index := [], existing := ["a.txt"], nextId := 0 }).2).1.fileId = some 0) ∧
    ((put "b.txt" { index := [], existing := ["a.txt"], nextId := 0 }).1.status = 404 ∧
     (put "b.txt" { index := [], existing := ["a.txt"], nextId := 0 }).2 =
       { index := [], existing := ["a.txt"], nextId := 0 }) := by
  have h1 := (C5_session_endpoint
      { index := [], existing := ["a.txt"], nextId := 0 } "a.txt"
      (by intro q hq; exact absurd hq (List.not_mem_nil _))).1
      ⟨rfl, by decide⟩
  have h2 := (C5_session_endpoint
      { index := [], existing := ["a.txt"], nextId := 0 } "b.txt"
      (by intro q hq; exact absurd hq (List.not_mem_nil _))).2.2
      ⟨rfl, by decide⟩
  exact ⟨⟨h1.1, h1.2.2.2.1, h1.2.2.2.2.1⟩, h2.1, h2.2.2⟩

end JupyterCollab
